import Mathlib

/-
Verification development for the bskyunroll service (src/index.mjs).

The source is a small Deno/Hono service that, given a Bluesky post URL,
reconstructs the author's self-reply thread.  This file gives a shallow
embedding of its core functions:

  * extractEmbeds   (src/index.mjs lines 78-91)
  * extractFacets   (src/index.mjs lines 98-115)
  * didFromPost     (src/index.mjs lines 63-70)
  * extractReplies / traverseReplies (src/index.mjs lines 123-153)
  * fetchThread     (src/index.mjs lines 160-204), with its effects
    (Deno KV get/set, fetchHTML, fetchJSON) made explicit via an
    environment record and explicit state passing.

JavaScript strings are modelled as Lean `String`; the two JS string
operations the source uses, `split(sep)` and `trim()`, are given
kernel-computable char-list implementations below with JS semantics.
-/

/-! ## JS string primitives -/

/-- Helper for `jsSplit`: walks the character list, cutting at each
occurrence of the separator, like JS `String.prototype.split` with a
single-character separator (always yields at least one piece, keeps
empty pieces). -/
def splitCharAux (sep : Char) : List Char → List Char → List (List Char)
  | [], acc => [acc.reverse]
  | c :: cs, acc =>
    if c = sep then acc.reverse :: splitCharAux sep cs []
    else splitCharAux sep cs (c :: acc)

/-- JS `s.split(sep)` for a single-character separator. -/
def jsSplit (s : String) (sep : Char) : List String :=
  (splitCharAux sep s.data []).map (fun l => ⟨l⟩)

/-- JS `s.trim()`: strip leading and trailing whitespace. -/
def jsTrim (s : String) : String :=
  ⟨((s.data.dropWhile Char.isWhitespace).reverse.dropWhile Char.isWhitespace).reverse⟩

/-! ## Data model (the RawPost shape read by the source)

Field names follow the upstream JSON keys; the JSON keys `$type` and
`$link` are modelled as fields named `type` and `link`. -/

/-- The upstream author object.  Only `did` is ever read by the core;
the object is otherwise passed through verbatim. -/
structure Author where
  did : String
  deriving DecidableEq

/-- The `ref` object of an image blob; `link` models the `$link` key. -/
structure BlobRef where
  link : String
  deriving DecidableEq

/-- The `image` object inside one element of `embed.images`. -/
structure ImageBlob where
  mimeType : String
  ref : BlobRef
  deriving DecidableEq

/-- One element of `embed.images`. -/
structure EmbedImage where
  image : ImageBlob
  deriving DecidableEq

/-- A post's `record.embed` object.  `type` models the `$type` key;
`none` means the key is absent. -/
structure Embed where
  type : Option String
  images : List EmbedImage
  deriving DecidableEq

/-- One element of a facet's `features` array.  `type` models `$type`.
For non-link features the `uri` field is irrelevant junk (the source
only reads `uri` from link-tagged features). -/
structure FacetFeature where
  type : String
  uri : String
  deriving DecidableEq

/-- A facet's `index` object.  Byte offsets are JSON integers, modelled
as `Int` (the source performs no validation on them). -/
structure FacetIndex where
  byteStart : Int
  byteEnd : Int
  deriving DecidableEq

/-- One element of `record.facets`. -/
structure Facet where
  features : List FacetFeature
  index : FacetIndex
  deriving DecidableEq

/-- The output link annotation pushed by `extractFacets`
(src/index.mjs lines 105-109). -/
structure FacetLink where
  uri : String
  start : Int
  «end» : Int
  deriving DecidableEq

/-- A `{cid: ...}` reference, as in `record.reply.root` / `record.reply.parent`. -/
structure CidRef where
  cid : String
  deriving DecidableEq

/-- A post record's `reply` object. -/
structure ReplyRef where
  root : CidRef
  parent : CidRef
  deriving DecidableEq

/-- A post's `record` object. `embed`/`facets` are `none` when the key
is absent upstream. -/
structure PostRecord where
  text : String
  embed : Option Embed
  facets : Option (List Facet)
  reply : ReplyRef
  deriving DecidableEq

/-- The `post` object of a thread node. -/
structure Post where
  uri : String
  cid : String
  author : Author
  record : PostRecord
  deriving DecidableEq

/-- The normalized output record pushed for each accepted post
(src/index.mjs lines 136-141 and 185-189). -/
structure NormalizedPost where
  uri : String
  text : String
  embed : List String
  facets : List FacetLink
  deriving DecidableEq

/- The `replies` field of a thread node, and the reply forest under it.
`RVal.nonArray` models a `replies` value that is absent, `null`, or any
non-array value: all of these fail the `Array.isArray` guard at
src/index.mjs line 128 (and the `reply.replies && reply.replies.length > 0`
guard at line 142 either skips them or leads into that same guard), so
they all behave identically in the source. -/
mutual
inductive RVal where
  | nonArray
  | arr (elems : RForest)
inductive RForest where
  | nil
  | cons (post : Post) (replies : RVal) (rest : RForest)
end

/-- Number of nodes at the top level of a reply forest (JS `array.length`). -/
def RForest.length : RForest → Nat
  | .nil => 0
  | .cons _ _ rest => rest.length + 1

/-- JS evaluation of `replies && replies.length > 0` reduced to a length:
absent/null values are falsy, a non-array truthy value has no numeric
`length` (the comparison with 0 is false), an array reports its length. -/
def RVal.jsLen : RVal → Nat
  | .nonArray => 0
  | .arr elems => elems.length

/-- A thread node as consumed by `extractReplies`: the `thread` argument
with its `post` and `replies` fields. -/
structure ThreadNode where
  post : Post
  replies : RVal

/-! ## Content Normalizer (src/index.mjs lines 78-115) -/

/-- Shallow embedding of `extractEmbeds` (src/index.mjs lines 78-91).
The JS guard `embeds && Object.keys(embeds).includes("$type")` is the
two outer matches; the loop pushing one CDN URL per image is the `map`. -/
def extractEmbeds (embeds : Option Embed) (didPlc : String) : List String :=
  match embeds with
  | some embedsVal =>
    match embedsVal.type with
    | some t =>
      if t = "app.bsky.embed.images" then
        embedsVal.images.map (fun image =>
          let mime := (jsSplit image.image.mimeType '/').getLastD ""
          let link := image.image.ref.link
          "https://cdn.bsky.app/img/feed_thumbnail/plain/" ++ didPlc ++ "/" ++ link ++ "@" ++ mime)
      else []
    | none => []
  | none => []

/-- Shallow embedding of the facet loop body of `extractFacets`
(src/index.mjs lines 101-112): for each facet, filter its features to
the link-tagged ones and push one FacetLink per link feature, carrying
the facet's byte range. -/
def extractFacetsList : List Facet → List FacetLink
  | [] => []
  | facet :: rest =>
    let features := facet.features.filter (fun d => d.type = "app.bsky.richtext.facet#link")
    (if features.length > 0 then
      features.map (fun feature =>
        { uri := feature.uri, start := facet.index.byteStart, «end» := facet.index.byteEnd })
    else []) ++ extractFacetsList rest

/-- Shallow embedding of `extractFacets` (src/index.mjs lines 98-115);
the outer `if (facets)` is the `Option` match. -/
def extractFacets : Option (List Facet) → List FacetLink
  | none => []
  | some facets => extractFacetsList facets

/-- The normalized object literal pushed for a post (src/index.mjs
lines 136-141, also built for the root at lines 185-189). -/
def normalizePost (post : Post) (authorDid : String) : NormalizedPost :=
  { uri := post.uri
    text := post.record.text
    embed := extractEmbeds post.record.embed authorDid
    facets := extractFacets post.record.facets }

/-! ## Thread Reconstructor (src/index.mjs lines 123-153) -/

/- Shallow embedding of the inner `traverseReplies(replyArray, pcid)`
(src/index.mjs lines 127-149) together with its loop over `replyArray`.
`traverseVal` is the function entry (the `Array.isArray` guard at line
128); `traverseForest` is the `for (const reply of replyArray)` loop.
The source pushes into a closed-over array; here each call returns the
list of records it would push, in push order.  The free variables `cid`
and `authorDid` of the JS closure are explicit parameters. -/
mutual
def traverseVal (cid authorDid : String) (replyArray : RVal) (pcid : String) : List NormalizedPost :=
  match replyArray with
  | .nonArray => []
  | .arr elems => traverseForest cid authorDid elems pcid
def traverseForest (cid authorDid : String) (f : RForest) (pcid : String) : List NormalizedPost :=
  match f with
  | .nil => []
  | .cons post replies rest =>
    (if post.author.did = authorDid then
      if post.record.reply.root.cid = cid then
        if post.record.reply.parent.cid = pcid then
          normalizePost post authorDid ::
            (if replies.jsLen > 0 then traverseVal cid authorDid replies post.cid else [])
        else []
      else []
    else []) ++ traverseForest cid authorDid rest pcid
end

/-- Shallow embedding of `extractReplies` (src/index.mjs lines 123-153):
`cid` is bound to `thread.post.cid` and the walk starts at
`thread.replies` with expected parent `thread.post.cid`. -/
def extractReplies (thread : ThreadNode) (authorDid : String) : List NormalizedPost :=
  traverseVal thread.post.cid authorDid thread.replies thread.post.cid

/-- Shallow embedding of the thread-array construction in `fetchThread`
(src/index.mjs lines 185-192): the normalized root post consed onto the
extracted same-author reply chain, with `authorDid` taken from
`thread.thread.post.author.did`. -/
def buildThread (t : ThreadNode) : List NormalizedPost :=
  [normalizePost t.post t.post.author.did] ++ extractReplies t t.post.author.did

/-! ## Instrumented shadow of the traversal -/

/- `chainVal`/`chainForest` run exactly the admission test of
`traverseReplies` but return the accepted raw posts instead of their
normalized records (and drop the redundant `length > 0` guard before
recursing, which cannot change the output).  The lemma
`traverseVal_eq_map_chainVal` below proves this shadow equivalent to the
source-faithful traversal, so raw-level claims (author, cid, reply
linkage of accepted nodes) can be stated over it. -/
mutual
def chainVal (cid authorDid : String) (replyArray : RVal) (pcid : String) : List Post :=
  match replyArray with
  | .nonArray => []
  | .arr elems => chainForest cid authorDid elems pcid
def chainForest (cid authorDid : String) (f : RForest) (pcid : String) : List Post :=
  match f with
  | .nil => []
  | .cons post replies rest =>
    (if post.author.did = authorDid ∧ post.record.reply.root.cid = cid ∧
        post.record.reply.parent.cid = pcid then
      post :: chainVal cid authorDid replies post.cid
    else []) ++ chainForest cid authorDid rest pcid
end

/-- The raw chain of a reconstructed thread: the root post followed by
the accepted raw posts, in output order (positions match the
`buildThread` output, by `traverseVal_eq_map_chainVal`). -/
def threadChain (t : ThreadNode) : List Post :=
  t.post :: chainVal t.post.cid t.post.author.did t.replies t.post.cid

/-- Default values used with `List.getD` in position-indexed statements. -/
def defaultPost : Post :=
  { uri := "", cid := "", author := { did := "" },
    record := { text := "", embed := none, facets := none,
                reply := { root := { cid := "" }, parent := { cid := "" } } } }

/-- Default `EmbedImage` for `List.getD`. -/
def defaultEmbedImage : EmbedImage :=
  { image := { mimeType := "", ref := { link := "" } } }

/-- Default `FacetLink` for `List.getD`. -/
def defaultFacetLink : FacetLink :=
  { uri := "", start := 0, «end» := 0 }

/-- The per-position linkage invariant of the shadow traversal: every
emitted post's `reply.parent.cid` is either the expected-parent cid the
walk was started with, or the `cid` of an earlier emitted post. -/
def ChainOK (pcid : String) (l : List Post) : Prop :=
  ∀ i, i < l.length →
    (l.getD i defaultPost).record.reply.parent.cid ∈ pcid :: ((l.take i).map Post.cid)

/-! ## Pipeline model (src/index.mjs lines 160-204)

`fetchThread` performs three effects: a Deno KV read/write, an HTML
fetch-and-parse (`fetchHTML`, which catches its own errors and returns
null), and a feed JSON fetch (`fetchJSON`).  They are modelled by an
explicit environment (the deterministic, immutable upstream world of
spec §5), an explicit KV state threaded through the call, and a count of
outbound network calls issued. -/

/-- A parsed post page, reduced to what `didFromPost` reads: the
`innerText` of the `p#bsky_did` marker element, `none` if the element is
missing. -/
structure HTMLDocument where
  bskyDid : Option String
  deriving DecidableEq

/-- Shallow embedding of `didFromPost` (src/index.mjs lines 63-70). -/
def didFromPost (postDoc : Option HTMLDocument) : Option String :=
  match postDoc with
  | none => none
  | some doc =>
    match doc.bskyDid with
    | none => none
    | some txt => some (jsTrim txt)

/-- A value returned by `fetchThread`: either the error object literal of
src/index.mjs lines 169-171, or the success object of lines 195-199
(whose `message` field is the literal "success"). -/
inductive FetchResult where
  | errorResult (message : String)
  | success (author : Author) (thread : List NormalizedPost)
  deriving DecidableEq

/-- The `message` field of a result object. -/
def FetchResult.message : FetchResult → String
  | .errorResult m => m
  | .success _ _ => "success"

/-- How one invocation of `fetchThread` terminates: with a returned
value, or with an unhandled JS exception escaping it (e.g. the
`TypeError` thrown at line 186 when the feed response has no usable
`thread` object, or a rejection of the uncaught `fetch` in `fetchJSON`). -/
inductive RunResult where
  | ok (value : FetchResult)
  | fault
  deriving DecidableEq

/-- The Deno KV store, keyed by the raw post URL (the source uses the
one-element key `[postURL]`); `none` models a null `entry.value`. -/
def KV : Type := String → Option FetchResult

/-- The deterministic upstream world: what `fetchHTML` yields per page
URL (`none` models its caught-error null), and what `fetchJSON` yields
per feed URL (`none` models a failed fetch or a JSON body without a
usable `thread` object — either way the pipeline faults when it touches
`thread.thread.post`). -/
structure Env where
  html : String → Option HTMLDocument
  feed : String → Option ThreadNode

/-- Outcome of one `fetchThread` invocation: its termination, the KV
state after the call, and how many outbound network calls it issued. -/
structure Outcome where
  result : RunResult
  kv : KV
  fetches : Nat

/-- JS template-literal interpolation of a possibly-null string: `null`
prints as the four characters "null" (src/index.mjs line 181 performs no
null check on `did`). -/
def jsStringOfNullable : Option String → String
  | none => "null"
  | some s => s

/-- The feed API URL built at src/index.mjs line 181. -/
def threadURLFor (did : Option String) (postThreadTop : String) : String :=
  "https://public.api.bsky.app/xrpc/app.bsky.feed.getPostThread?uri=at://" ++
    jsStringOfNullable did ++ "/app.bsky.feed.post/" ++ postThreadTop

/-- Shallow embedding of `fetchThread` (src/index.mjs lines 160-204).
The branches in order: KV hit (lines 161-164); failed page fetch (lines
167-172, no KV write, one network call made); feed fetch whose response
has no usable thread (the property accesses at lines 186-191 throw — a
fault, no KV write); success (lines 185-203, KV write of the success
object, two network calls made).  Note the source never checks `did`
for null after line 175: a null did is interpolated as "null". -/
def fetchThread (env : Env) (kv : KV) (postURL : String) : Outcome :=
  match kv postURL with
  | some value => { result := .ok value, kv := kv, fetches := 0 }
  | none =>
    match env.html postURL with
    | none => { result := .ok (.errorResult "Error: Invalid URL"), kv := kv, fetches := 1 }
    | some postDoc =>
      match env.feed (threadURLFor (didFromPost (some postDoc))
          ((jsSplit postURL '/').getLastD "")) with
      | none => { result := .fault, kv := kv, fetches := 2 }
      | some threadNode =>
        let out : FetchResult := .success threadNode.post.author (buildThread threadNode)
        { result := .ok out,
          kv := fun k => if k = postURL then some out else kv k,
          fetches := 2 }

/-! ## Concrete fixtures used by witnesses and counterexamples -/

/-- A root post: cid "c0", author "A". -/
def postRoot : Post :=
  { uri := "at://did:plc:a/app.bsky.feed.post/r", cid := "c0", author := { did := "A" },
    record := { text := "root", embed := none, facets := none,
                reply := { root := { cid := "" }, parent := { cid := "" } } } }

/-- A first same-author reply: cid "c1", parent "c0", root "c0". -/
def postP1 : Post :=
  { uri := "at://did:plc:a/app.bsky.feed.post/1", cid := "c1", author := { did := "A" },
    record := { text := "first", embed := none, facets := none,
                reply := { root := { cid := "c0" }, parent := { cid := "c0" } } } }

/-- A second same-author reply to the same parent: cid "c2", parent "c0",
root "c0" — a qualifying sibling branch. -/
def postP2 : Post :=
  { uri := "at://did:plc:a/app.bsky.feed.post/2", cid := "c2", author := { did := "A" },
    record := { text := "second", embed := none, facets := none,
                reply := { root := { cid := "c0" }, parent := { cid := "c0" } } } }

/-- A foreign-author reply: author "B", parent "c0", root "c0". -/
def postX : Post :=
  { uri := "at://did:plc:b/app.bsky.feed.post/x", cid := "cX", author := { did := "B" },
    record := { text := "intruder", embed := none, facets := none,
                reply := { root := { cid := "c0" }, parent := { cid := "c0" } } } }

/-- A root-author reply nested under the foreign reply: author "A",
parent "cX", root "c0". -/
def postY : Post :=
  { uri := "at://did:plc:a/app.bsky.feed.post/y", cid := "cY", author := { did := "A" },
    record := { text := "stranded", embed := none, facets := none,
                reply := { root := { cid := "c0" }, parent := { cid := "cX" } } } }

/-- A branching thread: root with two qualifying sibling replies. -/
def tBranch : ThreadNode :=
  { post := postRoot,
    replies := .arr (.cons postP1 .nonArray (.cons postP2 .nonArray .nil)) }

/-- The embed object of the spec §8 example: one jpeg image with blob
link "abc123". -/
def embedEx : Embed :=
  { type := some "app.bsky.embed.images",
    images := [{ image := { mimeType := "image/jpeg", ref := { link := "abc123" } } }] }

/-- The facet of the spec §8 example: byte range 5..10, one link feature
and one mention feature. -/
def facetEx : Facet :=
  { features := [{ type := "app.bsky.richtext.facet#link", uri := "https://x.test" },
                 { type := "app.bsky.richtext.facet#mention", uri := "unused" }],
    index := { byteStart := 5, byteEnd := 10 } }

/-- A facet whose byte range is inverted (byteStart 5 > byteEnd 3): the
source copies it through unvalidated. -/
def facetBad : Facet :=
  { features := [{ type := "app.bsky.richtext.facet#link", uri := "https://x.test" }],
    index := { byteStart := 5, byteEnd := 3 } }

/-- The empty KV store. -/
def kvEmpty : KV := fun _ => none

/-- An upstream world where every page fetch fails. -/
def envFail : Env := { html := fun _ => none, feed := fun _ => none }

/-- An upstream world where every page parses but carries no
`p#bsky_did` marker, and every feed call fails. -/
def envNoDid : Env := { html := fun _ => some { bskyDid := none }, feed := fun _ => none }

/-- An upstream world where every page yields a did marker and every
feed call returns the branching thread fixture. -/
def envOK : Env :=
  { html := fun _ => some { bskyDid := some " did:plc:a " },
    feed := fun _ => some tBranch }

/-- A concrete input post URL. -/
def urlEx : String := "https://bsky.app/profile/a.test/post/r"

/-- The success value the pipeline computes for `tBranch`. -/
def vOK : FetchResult := .success tBranch.post.author (buildThread tBranch)

/-! ## Helper lemmas on lists -/

/-- `getD` on an append, index inside the left list. -/
theorem listGetD_append_left {α : Type} (l1 l2 : List α) (d : α) :
    ∀ i, i < l1.length → (l1 ++ l2).getD i d = l1.getD i d := by
  induction l1 with
  | nil => intro i h; simp at h
  | cons a t ih =>
    intro i h
    cases i with
    | zero => rfl
    | succ j => simpa using ih j (by simpa using h)

/-- `getD` on an append, index past the left list. -/
theorem listGetD_append_right {α : Type} (l1 l2 : List α) (d : α) :
    ∀ m, (l1 ++ l2).getD (l1.length + m) d = l2.getD m d := by
  induction l1 with
  | nil => intro m; simp
  | cons a t ih =>
    intro m
    have hstep : (a :: t).length + m = (t.length + m) + 1 := by
      simp [List.length_cons]; omega
    rw [hstep]
    simpa using ih m

/-- `getD` through a `map`, for an in-range index. -/
theorem listGetD_map {α β : Type} (f : α → β) (l : List α) (d : β) (d' : α) :
    ∀ i, i < l.length → (l.map f).getD i d = f (l.getD i d') := by
  induction l with
  | nil => intro i h; simp at h
  | cons a t ih =>
    intro i h
    cases i with
    | zero => rfl
    | succ j => simpa using ih j (by simpa using h)

/-- An in-range `getD` is a member of the list. -/
theorem listGetD_mem {α : Type} (l : List α) (d : α) (i : Nat) (h : i < l.length) :
    l.getD i d ∈ l := by
  rw [List.getD_eq_getElem _ _ h]
  exact List.getElem_mem h

/-! ## Helper lemmas about the shadow traversal -/

/-- When the JS guard `replies && replies.length > 0` fails, the shadow
traversal of that value is empty. -/
theorem chainVal_jsLen_zero (cid authorDid : String) (v : RVal) (pcid : String)
    (h : v.jsLen = 0) : chainVal cid authorDid v pcid = [] := by
  cases v with
  | nonArray => rfl
  | arr elems =>
    cases elems with
    | nil => rfl
    | cons p r rest => simp [RVal.jsLen, RForest.length] at h

mutual
/-- Every post emitted by the shadow traversal of a `replies` value passed
the author and root-cid admission tests. -/
theorem chainVal_mem (cid authorDid : String) (v : RVal) (pcid : String) :
    ∀ p ∈ chainVal cid authorDid v pcid,
      p.author.did = authorDid ∧ p.record.reply.root.cid = cid :=
  match v with
  | .nonArray => by intro p hp; simp [chainVal] at hp
  | .arr elems => by
    intro p hp
    exact chainForest_mem cid authorDid elems pcid p hp
/-- Every post emitted by the shadow traversal of a reply forest passed the
author and root-cid admission tests. -/
theorem chainForest_mem (cid authorDid : String) (f : RForest) (pcid : String) :
    ∀ p ∈ chainForest cid authorDid f pcid,
      p.author.did = authorDid ∧ p.record.reply.root.cid = cid :=
  match f with
  | .nil => by intro p hp; simp [chainForest] at hp
  | .cons post replies rest => by
    intro p hp
    rw [chainForest] at hp
    rcases List.mem_append.mp hp with h1 | h2
    · by_cases hacc : post.author.did = authorDid ∧ post.record.reply.root.cid = cid ∧
          post.record.reply.parent.cid = pcid
      · rw [if_pos hacc] at h1
        rcases List.mem_cons.mp h1 with heq | h3
        · rw [heq]; exact ⟨hacc.1, hacc.2.1⟩
        · exact chainVal_mem cid authorDid replies post.cid p h3
      · rw [if_neg hacc] at h1
        simp at h1
    · exact chainForest_mem cid authorDid rest pcid p h2
end

mutual
/-- Refinement: the source-faithful traversal of a `replies` value emits
exactly the normalized records of the posts the shadow traversal emits. -/
theorem traverseVal_eq_map_chainVal (cid authorDid : String) (v : RVal) (pcid : String) :
    traverseVal cid authorDid v pcid =
      (chainVal cid authorDid v pcid).map (fun p => normalizePost p authorDid) :=
  match v with
  | .nonArray => rfl
  | .arr elems => traverseForest_eq_map_chainForest cid authorDid elems pcid
/-- Refinement: the source-faithful traversal of a reply forest emits
exactly the normalized records of the posts the shadow traversal emits. -/
theorem traverseForest_eq_map_chainForest (cid authorDid : String) (f : RForest) (pcid : String) :
    traverseForest cid authorDid f pcid =
      (chainForest cid authorDid f pcid).map (fun p => normalizePost p authorDid) :=
  match f with
  | .nil => rfl
  | .cons post replies rest => by
    rw [traverseForest, chainForest, List.map_append]
    congr 1
    · by_cases h1 : post.author.did = authorDid
      · by_cases h2 : post.record.reply.root.cid = cid
        · by_cases h3 : post.record.reply.parent.cid = pcid
          · rw [if_pos h1, if_pos h2, if_pos h3,
              if_pos (show post.author.did = authorDid ∧ post.record.reply.root.cid = cid ∧
                post.record.reply.parent.cid = pcid from ⟨h1, h2, h3⟩),
              List.map_cons]
            congr 1
            by_cases h4 : replies.jsLen > 0
            · rw [if_pos h4]
              exact traverseVal_eq_map_chainVal cid authorDid replies post.cid
            · rw [if_neg h4, chainVal_jsLen_zero cid authorDid replies post.cid (by omega)]
              rfl
          · rw [if_pos h1, if_pos h2, if_neg h3, if_neg (by tauto)]; rfl
        · rw [if_pos h1, if_neg h2, if_neg (by tauto)]; rfl
      · rw [if_neg h1, if_neg (by tauto)]; rfl
    · exact traverseForest_eq_map_chainForest cid authorDid rest pcid
end

/-! ## Helper lemmas about the linkage invariant -/

/-- The empty emission satisfies the linkage invariant. -/
theorem chainOK_nil (pcid : String) : ChainOK pcid [] := by
  intro i hi
  simp at hi

/-- Consing an accepted post whose parent is the expected cid onto an
emission that chains from that post preserves the linkage invariant. -/
theorem chainOK_cons (p : Post) (l : List Post) (pcid : String)
    (hp : p.record.reply.parent.cid = pcid) (hl : ChainOK p.cid l) :
    ChainOK pcid (p :: l) := by
  intro i hi
  cases i with
  | zero =>
    simp [List.getD_cons_zero, hp]
  | succ j =>
    have hj : j < l.length := by simpa using hi
    have h := hl j hj
    simp only [List.getD_cons_succ, List.take_succ_cons, List.map_cons]
    exact List.mem_cons_of_mem _ h

/-- Appending two emissions that both satisfy the linkage invariant for
the same expected parent preserves it. -/
theorem chainOK_append (pcid : String) (l1 l2 : List Post)
    (h1 : ChainOK pcid l1) (h2 : ChainOK pcid l2) : ChainOK pcid (l1 ++ l2) := by
  intro i hi
  rcases Nat.lt_or_ge i l1.length with hlt | hge
  · rw [listGetD_append_left l1 l2 _ i hlt,
      List.take_append_of_le_length (Nat.le_of_lt hlt)]
    exact h1 i hlt
  · obtain ⟨m, rfl⟩ : ∃ m, i = l1.length + m := ⟨i - l1.length, by omega⟩
    have hm : m < l2.length := by
      rw [List.length_append] at hi
      omega
    rw [listGetD_append_right l1 l2 _ m, List.take_append, List.map_append]
    have h := h2 m hm
    rcases List.mem_cons.mp h with hx | hx
    · rw [hx]; exact List.mem_cons_self _ _
    · exact List.mem_cons_of_mem _ (List.mem_append_right _ hx)

mutual
/-- The shadow traversal of a `replies` value satisfies the linkage
invariant for its expected parent. -/
theorem chainVal_chainOK (cid authorDid : String) (v : RVal) (pcid : String) :
    ChainOK pcid (chainVal cid authorDid v pcid) :=
  match v with
  | .nonArray => chainOK_nil pcid
  | .arr elems => chainForest_chainOK cid authorDid elems pcid
/-- The shadow traversal of a reply forest satisfies the linkage invariant
for its expected parent. -/
theorem chainForest_chainOK (cid authorDid : String) (f : RForest) (pcid : String) :
    ChainOK pcid (chainForest cid authorDid f pcid) :=
  match f with
  | .nil => chainOK_nil pcid
  | .cons post replies rest => by
    rw [chainForest]
    by_cases hacc : post.author.did = authorDid ∧ post.record.reply.root.cid = cid ∧
        post.record.reply.parent.cid = pcid
    · rw [if_pos hacc]
      exact chainOK_append pcid _ _
        (chainOK_cons post _ pcid hacc.2.2 (chainVal_chainOK cid authorDid replies post.cid))
        (chainForest_chainOK cid authorDid rest pcid)
    · rw [if_neg hacc]
      exact chainForest_chainOK cid authorDid rest pcid
end

/-- Unfolding `extractFacetsList` as a flatMap: one FacetLink per
link-tagged feature, in input order, carrying the facet's byte range. -/
theorem extractFacetsList_eq_flatMap (fs : List Facet) :
    extractFacetsList fs = fs.flatMap (fun facet =>
      (facet.features.filter (fun d => d.type = "app.bsky.richtext.facet#link")).map
        (fun feature =>
          { uri := feature.uri, start := facet.index.byteStart, «end» := facet.index.byteEnd })) := by
  induction fs with
  | nil => rfl
  | cons facet rest ih =>
    by_cases hf :
        (facet.features.filter (fun d => d.type = "app.bsky.richtext.facet#link")).length > 0
    · simp only [extractFacetsList, if_pos hf, ih, List.flatMap_cons]
    · have hempty :
          facet.features.filter (fun d => d.type = "app.bsky.richtext.facet#link") = [] := by
        have : (facet.features.filter
            (fun d => d.type = "app.bsky.richtext.facet#link")).length = 0 := by omega
        exact List.length_eq_zero.mp this
      simp [extractFacetsList, hempty, ih, List.flatMap_cons]

/-! ## Claim theorems -/

/-- C1: a candidate reply whose author did differs from the root author's
did is excluded from the reconstructed thread together with its entire
subtree — whatever that subtree contains (in particular descendants whose
author did equals the root author's) — because `traverseReplies` only
recurses into an accepted node's children: a rejected head node
contributes nothing to the output. -/
theorem claim1_foreign_reply_pruned (cid authorDid pcid : String)
    (post : Post) (replies : RVal) (rest : RForest)
    (h : post.author.did ≠ authorDid) :
    traverseForest cid authorDid (.cons post replies rest) pcid =
      traverseForest cid authorDid rest pcid := by
  rw [traverseForest, if_neg h]
  simp

/-- Witness for C1, on the spec §8 example: under root cid "c0" and root
author "A", the foreign reply `postX` (author "B") carrying the
same-author descendant `postY` is pruned whole — the output is empty. -/
theorem claim1_witness :
    postX.author.did ≠ "A" ∧ postY.author.did = "A" ∧
    traverseForest "c0" "A" (.cons postX (.arr (.cons postY .nonArray .nil)) .nil) "c0" = [] :=
  ⟨by decide, by decide,
    (claim1_foreign_reply_pruned "c0" "A" "c0" postX
      (.arr (.cons postY .nonArray .nil)) .nil (by decide)).trans rfl⟩

/-- C2 counterexample: the claim "reply.parent.cid equals the raw cid of
the chain element at position i-1" fails on a branching thread.  Root
"c0" has two qualifying same-author replies `postP1` (cid "c1") and
`postP2` (cid "c2"), both with parent "c0"; both are accepted, so the
chain is [root, P1, P2], and the element at position 2 has parent cid
"c0", not the cid "c1" of the element at position 1 — even though it is
an accepted element (same author, root cid matches). -/
theorem claim2_counterexample :
    threadChain tBranch = [postRoot, postP1, postP2] ∧
    postP2.author.did = postRoot.author.did ∧
    postP2.record.reply.root.cid = postRoot.cid ∧
    postP2.record.reply.parent.cid ≠ postP1.cid :=
  ⟨by decide, by decide, by decide, by decide⟩

/-- C2 (amended): for every reconstructed thread and every accepted chain
element at position i>0, the raw node's reply.root.cid equals the root
post's cid, and its reply.parent.cid equals the raw cid of some strictly
earlier chain element (the expected parent at its acceptance) — which is
the element at position i-1 exactly when no branching occurs, but, as the
counterexample shows, may sit earlier when the author posts several
qualifying replies to the same parent. -/
theorem claim2_parent_is_earlier (t : ThreadNode) (i : Nat)
    (hi : i < (threadChain t).length) (h0 : 0 < i) :
    ((threadChain t).getD i defaultPost).record.reply.root.cid = t.post.cid ∧
    ((threadChain t).getD i defaultPost).record.reply.parent.cid ∈
      (((threadChain t).take i).map Post.cid) := by
  obtain ⟨j, rfl⟩ : ∃ j, i = j + 1 := ⟨i - 1, by omega⟩
  have hchain : threadChain t =
      t.post :: chainVal t.post.cid t.post.author.did t.replies t.post.cid := rfl
  have hj : j < (chainVal t.post.cid t.post.author.did t.replies t.post.cid).length := by
    rw [hchain] at hi
    simpa using hi
  constructor
  · rw [hchain, List.getD_cons_succ]
    exact (chainVal_mem t.post.cid t.post.author.did t.replies t.post.cid _
      (listGetD_mem _ defaultPost j hj)).2
  · rw [hchain, List.getD_cons_succ, List.take_succ_cons, List.map_cons]
    exact chainVal_chainOK t.post.cid t.post.author.did t.replies t.post.cid j hj

/-- Witness for the amended C2, on the branching fixture at position 2:
the root cid matches and the parent cid is the cid of an earlier chain
element. -/
theorem claim2_witness :
    ((threadChain tBranch).getD 2 defaultPost).record.reply.root.cid = tBranch.post.cid ∧
    ((threadChain tBranch).getD 2 defaultPost).record.reply.parent.cid ∈
      (((threadChain tBranch).take 2).map Post.cid) :=
  claim2_parent_is_earlier tBranch 2 (by decide) (by decide)

/-- C3: for every fetched thread tree, the output thread array is
non-empty, its first element is the normalized root record
(uri/text/embed/facets of thread.post itself), and every subsequent
element is the normalized record of an accepted raw node whose author
did equals the root author's did. -/
theorem claim3_thread_shape (t : ThreadNode) :
    buildThread t ≠ [] ∧
    (buildThread t).head? =
      some
        { uri := t.post.uri,
          text := t.post.record.text,
          embed := extractEmbeds t.post.record.embed t.post.author.did,
          facets := extractFacets t.post.record.facets } ∧
    ∀ x ∈ (buildThread t).tail,
      ∃ p ∈ chainVal t.post.cid t.post.author.did t.replies t.post.cid,
        p.author.did = t.post.author.did ∧ x = normalizePost p t.post.author.did := by
  refine ⟨List.cons_ne_nil _ _, rfl, ?_⟩
  intro x hx
  have htail : (buildThread t).tail = extractReplies t t.post.author.did := rfl
  rw [htail, extractReplies, traverseVal_eq_map_chainVal] at hx
  obtain ⟨p, hp, hpx⟩ := List.mem_map.mp hx
  exact ⟨p, hp, (chainVal_mem _ _ _ _ _ hp).1, hpx.symm⟩

/-- Witness for C3 on the branching fixture, with the normalized first
accepted reply as the tail element. -/
theorem claim3_witness :
    buildThread tBranch ≠ [] ∧
    (buildThread tBranch).head? =
      some
        { uri := tBranch.post.uri,
          text := tBranch.post.record.text,
          embed := extractEmbeds tBranch.post.record.embed tBranch.post.author.did,
          facets := extractFacets tBranch.post.record.facets } ∧
    (∃ p ∈ chainVal tBranch.post.cid tBranch.post.author.did tBranch.replies tBranch.post.cid,
      p.author.did = tBranch.post.author.did ∧
      normalizePost postP1 "A" = normalizePost p tBranch.post.author.did) :=
  ⟨(claim3_thread_shape tBranch).1, (claim3_thread_shape tBranch).2.1,
    (claim3_thread_shape tBranch).2.2 (normalizePost postP1 "A") (by decide)⟩

/-- C4: `extractEmbeds` on an image-gallery embed returns one CDN URL per
image, in input order, of the exact form
`https://cdn.bsky.app/img/feed_thumbnail/plain/<did>/<link>@<subtype>`
where the subtype is the last slash-separated segment of the image's
mimeType; an absent embed or any other (or absent) `$type` yields `[]`. -/
theorem claim4_embed_extraction :
    (∀ didPlc, extractEmbeds none didPlc = []) ∧
    (∀ e didPlc, e.type ≠ some "app.bsky.embed.images" → extractEmbeds (some e) didPlc = []) ∧
    (∀ e didPlc, e.type = some "app.bsky.embed.images" →
      (extractEmbeds (some e) didPlc).length = e.images.length ∧
      ∀ i, i < e.images.length →
        (extractEmbeds (some e) didPlc).getD i "" =
          "https://cdn.bsky.app/img/feed_thumbnail/plain/" ++ didPlc ++ "/" ++
            (e.images.getD i defaultEmbedImage).image.ref.link ++ "@" ++
            ((jsSplit (e.images.getD i defaultEmbedImage).image.mimeType '/').getLastD "")) := by
  refine ⟨fun _ => rfl, ?_, ?_⟩
  · intro e didPlc h
    cases htype : e.type with
    | none => simp [extractEmbeds, htype]
    | some t =>
      have ht : ¬ t = "app.bsky.embed.images" := by
        intro hteq
        exact h (by rw [htype, hteq])
      simp [extractEmbeds, htype, ht]
  · intro e didPlc h
    have hmap : extractEmbeds (some e) didPlc = e.images.map (fun image =>
        "https://cdn.bsky.app/img/feed_thumbnail/plain/" ++ didPlc ++ "/" ++
          image.image.ref.link ++ "@" ++ ((jsSplit image.image.mimeType '/').getLastD "")) := by
      simp [extractEmbeds, h]
    constructor
    · rw [hmap, List.length_map]
    · intro i hi
      rw [hmap, listGetD_map _ _ _ defaultEmbedImage i hi]

/-- Witness for C4 on the spec §8 example: author "did:plc:xyz", one jpeg
image with blob link "abc123" yields exactly the CDN URL ending in
"@jpeg"; the absent-embed branch yields `[]`. -/
theorem claim4_witness :
    (extractEmbeds (some embedEx) "did:plc:xyz").getD 0 "" =
      "https://cdn.bsky.app/img/feed_thumbnail/plain/" ++ "did:plc:xyz" ++ "/" ++
        (embedEx.images.getD 0 defaultEmbedImage).image.ref.link ++ "@" ++
        ((jsSplit (embedEx.images.getD 0 defaultEmbedImage).image.mimeType '/').getLastD "") ∧
    extractEmbeds (some embedEx) "did:plc:xyz" =
      ["https://cdn.bsky.app/img/feed_thumbnail/plain/did:plc:xyz/abc123@jpeg"] ∧
    extractEmbeds none "did:plc:xyz" = [] :=
  ⟨(claim4_embed_extraction.2.2 embedEx "did:plc:xyz" rfl).2 0 (by decide),
    by decide, claim4_embed_extraction.1 "did:plc:xyz"⟩

/-- C5: `extractFacets` emits exactly one FacetLink per feature tagged
"app.bsky.richtext.facet#link", taking start/end from the enclosing
facet's index.byteStart/index.byteEnd; other feature tags are ignored; a
facet with several link features yields several links sharing the byte
range; input order is preserved; an absent facet list yields `[]` — all
of which the flatMap/filter/map normal form states. -/
theorem claim5_facet_links :
    extractFacets none = [] ∧
    ∀ facets, extractFacets (some facets) = facets.flatMap (fun facet =>
      (facet.features.filter (fun d => d.type = "app.bsky.richtext.facet#link")).map
        (fun feature =>
          { uri := feature.uri, start := facet.index.byteStart, «end» := facet.index.byteEnd })) :=
  ⟨rfl, fun facets => extractFacetsList_eq_flatMap facets⟩

/-- Witness for C5 on the spec §8 example facet (byte range 5..10, one
link feature and one mention feature): exactly one FacetLink, from the
link feature. -/
theorem claim5_witness :
    extractFacets (some [facetEx]) = [facetEx].flatMap (fun facet =>
      (facet.features.filter (fun d => d.type = "app.bsky.richtext.facet#link")).map
        (fun feature =>
          { uri := feature.uri, start := facet.index.byteStart, «end» := facet.index.byteEnd })) ∧
    extractFacets (some [facetEx]) = [{ uri := "https://x.test", start := 5, «end» := 10 }] :=
  ⟨claim5_facet_links.2 [facetEx], by decide⟩

/-- C6: on a cache miss whose page fetch fails, `fetchThread` returns
exactly the error object with message "Error: Invalid URL", leaves the
KV store untouched, and a repeat call with the unchanged store performs
the outbound fetch again (it is not answered from cache). -/
theorem claim6_failed_fetch_not_cached (env : Env) (kv : KV) (postURL : String)
    (hmiss : kv postURL = none) (hhtml : env.html postURL = none) :
    fetchThread env kv postURL =
      { result := .ok (.errorResult "Error: Invalid URL"), kv := kv, fetches := 1 } ∧
    (fetchThread env (fetchThread env kv postURL).kv postURL).fetches = 1 := by
  have h1 : fetchThread env kv postURL =
      { result := .ok (.errorResult "Error: Invalid URL"), kv := kv, fetches := 1 } := by
    simp only [fetchThread, hmiss, hhtml]
  exact ⟨h1, by simp [h1]⟩

/-- Witness for C6: empty store, failing upstream page fetch. -/
theorem claim6_witness :
    fetchThread envFail kvEmpty urlEx =
      { result := .ok (.errorResult "Error: Invalid URL"), kv := kvEmpty, fetches := 1 } ∧
    (fetchThread envFail (fetchThread envFail kvEmpty urlEx).kv urlEx).fetches = 1 :=
  claim6_failed_fetch_not_cached envFail kvEmpty urlEx rfl rfl

/-- C7: if a `fetchThread` call returns a result whose message is
"success", a second call with the same URL against the resulting KV
state returns the identical value, performs zero outbound network
fetches, and leaves the KV state unchanged (the stored entry is neither
overwritten nor evicted). -/
theorem claim7_success_cached_idempotent (env : Env) (kv : KV) (postURL : String)
    (v : FetchResult)
    (h1 : (fetchThread env kv postURL).result = .ok v)
    (h2 : v.message = "success") :
    fetchThread env (fetchThread env kv postURL).kv postURL =
      { result := .ok v, kv := (fetchThread env kv postURL).kv, fetches := 0 } := by
  cases hkv : kv postURL with
  | some w =>
    have hout : fetchThread env kv postURL = { result := .ok w, kv := kv, fetches := 0 } := by
      simp only [fetchThread, hkv]
    rw [hout] at h1
    simp only [RunResult.ok.injEq] at h1
    rw [hout, h1]
    simp only [fetchThread, hkv, h1]
  | none =>
    cases hh : env.html postURL with
    | none =>
      have hout : fetchThread env kv postURL =
          { result := .ok (.errorResult "Error: Invalid URL"), kv := kv, fetches := 1 } := by
        simp only [fetchThread, hkv, hh]
      rw [hout] at h1
      simp only [RunResult.ok.injEq] at h1
      rw [← h1] at h2
      simp [FetchResult.message] at h2
    | some doc =>
      cases hf : env.feed (threadURLFor (didFromPost (some doc))
          ((jsSplit postURL '/').getLastD "")) with
      | none =>
        have hout : fetchThread env kv postURL = { result := .fault, kv := kv, fetches := 2 } := by
          simp only [fetchThread, hkv, hh, hf]
        rw [hout] at h1
        simp at h1
      | some node =>
        have hout : fetchThread env kv postURL =
            { result := .ok (.success node.post.author (buildThread node)),
              kv := fun k => if k = postURL then
                some (.success node.post.author (buildThread node)) else kv k,
              fetches := 2 } := by
          simp only [fetchThread, hkv, hh, hf]
        rw [hout] at h1
        simp only [RunResult.ok.injEq] at h1
        rw [hout, h1]
        simp [fetchThread]
  

/-- Witness for C7: a world where the page yields a did marker and the
feed returns the branching fixture; the first call computes and stores
the success value, the second is a pure cache hit. -/
theorem claim7_witness :
    (fetchThread envOK kvEmpty urlEx).result = .ok vOK ∧
    vOK.message = "success" ∧
    fetchThread envOK (fetchThread envOK kvEmpty urlEx).kv urlEx =
      { result := .ok vOK, kv := (fetchThread envOK kvEmpty urlEx).kv, fetches := 0 } :=
  ⟨rfl, rfl, claim7_success_cached_idempotent envOK kvEmpty urlEx vOK rfl rfl⟩

/-- C8 counterexample: when the post page parses but carries no author
identifier (didFromPost yields none), the pipeline does NOT return the
fixed ErrorResult — it proceeds past the missing did and, with the feed
call failing, faults with an unhandled error instead. -/
theorem claim8_counterexample :
    didFromPost (envNoDid.html urlEx) = none ∧
    (fetchThread envNoDid kvEmpty urlEx).result = .fault ∧
    (fetchThread envNoDid kvEmpty urlEx).result ≠
      .ok (.errorResult "Error: Invalid URL") :=
  ⟨rfl, rfl, by decide⟩

/-- C8 (amended): `fetchThread` checks only the page fetch, not the
extracted identifier — when the page parses but `didFromPost` yields
null, it proceeds, interpolating the literal string "null" into the feed
URL; if that feed call then fails (or yields no usable thread object),
the invocation faults with an unhandled error, with no KV write — it
never surfaces the missing identifier as the fixed-message ErrorResult. -/
theorem claim8_missing_did_faults (env : Env) (kv : KV) (postURL : String) (doc : HTMLDocument)
    (hmiss : kv postURL = none) (hhtml : env.html postURL = some doc)
    (hdid : didFromPost (some doc) = none)
    (hfeed : env.feed (threadURLFor none ((jsSplit postURL '/').getLastD "")) = none) :
    fetchThread env kv postURL = { result := .fault, kv := kv, fetches := 2 } := by
  simp only [fetchThread, hmiss, hhtml, hdid, hfeed]

/-- Witness for the amended C8: empty store, page without a did marker,
failing feed. -/
theorem claim8_witness :
    kvEmpty urlEx = none ∧
    envNoDid.html urlEx = some { bskyDid := none } ∧
    didFromPost (some { bskyDid := none }) = none ∧
    fetchThread envNoDid kvEmpty urlEx = { result := .fault, kv := kvEmpty, fetches := 2 } :=
  ⟨rfl, rfl, rfl,
    claim8_missing_did_faults envNoDid kvEmpty urlEx { bskyDid := none } rfl rfl rfl rfl⟩

/-- C9 counterexample: `extractFacets` copies a facet's byte range
verbatim with no validation, so a facet with byteStart 5 and byteEnd 3
yields a FacetLink with start 5 > end 3, violating the claimed invariant
`0 <= start <= end` over all input facet lists. -/
theorem claim9_counterexample :
    extractFacets (some [facetBad]) = [{ uri := "https://x.test", start := 5, «end» := 3 }] ∧
    ¬ (((extractFacets (some [facetBad])).getD 0 defaultFacetLink).start ≤
        ((extractFacets (some [facetBad])).getD 0 defaultFacetLink).«end») :=
  ⟨by decide, by decide⟩

/-- C9 (amended): every FacetLink copies its byte range verbatim from its
facet's index, so whenever every input facet satisfies
`0 <= byteStart <= byteEnd`, every produced FacetLink satisfies
`0 <= start <= end`; the extraction itself performs no validation, so the
invariant does not hold over arbitrary input facet lists. -/
theorem claim9_range_preserved (facets : List Facet)
    (h : ∀ f ∈ facets, 0 ≤ f.index.byteStart ∧ f.index.byteStart ≤ f.index.byteEnd) :
    ∀ fl ∈ extractFacets (some facets), 0 ≤ fl.start ∧ fl.start ≤ fl.«end» := by
  intro fl hfl
  rw [show extractFacets (some facets) = extractFacetsList facets from rfl,
    extractFacetsList_eq_flatMap] at hfl
  obtain ⟨facet, hfacet, hmem⟩ := List.mem_flatMap.mp hfl
  obtain ⟨feature, _, hfeat⟩ := List.mem_map.mp hmem
  rw [← hfeat]
  exact h facet hfacet

/-- Witness for the amended C9 on the spec example facet (range 5..10):
the produced link has 0 ≤ 5 ≤ 10. -/
theorem claim9_witness :
    0 ≤ ({ uri := "https://x.test", start := 5, «end» := 10 } : FacetLink).start ∧
    ({ uri := "https://x.test", start := 5, «end» := 10 } : FacetLink).start ≤
      ({ uri := "https://x.test", start := 5, «end» := 10 } : FacetLink).«end» :=
  claim9_range_preserved [facetEx] (by decide) _ (by decide)

/-- C10: when the root node's `replies` value is absent, null, or not an
array (all modelled by `RVal.nonArray`, which is exactly what the
`Array.isArray` guard rejects), `extractReplies` returns the empty list
— totally, without faulting — so the built thread is exactly the
normalized root post. -/
theorem claim10_nonarray_replies (post : Post) (authorDid : String) :
    extractReplies { post := post, replies := .nonArray } authorDid = [] ∧
    buildThread { post := post, replies := .nonArray } =
      [normalizePost post post.author.did] :=
  ⟨rfl, rfl⟩

/-- Witness for C10 at the concrete root fixture. -/
theorem claim10_witness :
    extractReplies { post := postRoot, replies := .nonArray } "A" = [] ∧
    buildThread { post := postRoot, replies := .nonArray } =
      [normalizePost postRoot postRoot.author.did] :=
  claim10_nonarray_replies postRoot "A"
